import Mathlib

/-!
Shallow embedding of `src/apps/occt-service/occt_cli/main.cpp`, the STEP
mesh-extraction CLI.  C++ `double` values are modelled as real numbers;
`std::vector` buffers as Lean lists; the `static_cast<unsigned int>` applied
to `mesh.indices.size()` as reduction modulo `2 ^ 32`.  The OCCT kernel
(STEP reading, tessellation, `gp_Trsf` application) is external to the
repository and enters the model only through its boundary data: a list of
faces, each carrying an optional triangulation (node list plus 1-based
triangle index triples), an orientation flag and a local-to-global
transform function.  `std::stod` is likewise external and is modelled as an
abstract partial parse function `String → Option ℝ`.
-/

namespace OcctCli

/-- Model of `struct Vec3 { double x; double y; double z; }`. -/
structure Vec3 where
  x : ℝ
  y : ℝ
  z : ℝ

/-- Model of `struct Bounds { Vec3 min; Vec3 max; }`. -/
structure Bounds where
  min : Vec3
  max : Vec3

/-- Model of `struct MeshData`: flat position/normal buffers and the index buffer.
`unsigned int` entries are modelled as naturals (every value pushed is
already reduced mod `2 ^ 32` at the push site, matching the C++ cast). -/
structure MeshData where
  positions : List ℝ
  normals : List ℝ
  indices : List ℕ

/-- Model of `readDouble(value, fallback)`: `nullptr` or unparsable text falls back.
`std::stod` is external library code, modelled by the abstract `parse`. -/
def readDouble (parse : String → Option ℝ) (value : Option String) (fallback : ℝ) : ℝ :=
  match value with
  | none => fallback
  | some s =>
    match parse s with
    | none => fallback
    | some d => d

/-- Model of `unitScale(unit)`: `"m"` maps to `1.0`, everything else to `0.001`. -/
noncomputable def unitScale (unit : String) : ℝ :=
  if unit = "m" then 1.0 else 0.001

/-- Model of `updateBounds(bounds, point)`: componentwise min/max fold. -/
noncomputable def updateBounds (bounds : Bounds) (point : Vec3) : Bounds :=
  { min := { x := min bounds.min.x point.x
             y := min bounds.min.y point.y
             z := min bounds.min.z point.z }
    max := { x := max bounds.max.x point.x
             y := max bounds.max.y point.y
             z := max bounds.max.z point.z } }

/-- Model of `subtract(a, b)`: componentwise difference. -/
noncomputable def subtract (a b : Vec3) : Vec3 :=
  { x := a.x - b.x, y := a.y - b.y, z := a.z - b.z }

/-- Model of `cross(a, b)`: right-handed 3D cross product. -/
noncomputable def cross (a b : Vec3) : Vec3 :=
  { x := a.y * b.z - a.z * b.y
    y := a.z * b.x - a.x * b.z
    z := a.x * b.y - a.y * b.x }

/-- Model of `normalize(value)`: divide by the Euclidean length, or return the zero
vector when the length is at most `1e-12`. -/
noncomputable def normalize (value : Vec3) : Vec3 :=
  let length := Real.sqrt (value.x * value.x + value.y * value.y + value.z * value.z)
  if length ≤ 1e-12 then
    { x := 0.0, y := 0.0, z := 0.0 }
  else
    { x := value.x / length, y := value.y / length, z := value.z / length }

/-- Model of `appendVertex(mesh, point, normal)`: push the three point coordinates,
the three normal coordinates, and `static_cast<unsigned int>(indices.size())`
(i.e. the current index count reduced mod `2 ^ 32`). -/
def appendVertex (mesh : MeshData) (point normal : Vec3) : MeshData :=
  { positions := mesh.positions ++ [point.x, point.y, point.z]
    normals := mesh.normals ++ [normal.x, normal.y, normal.z]
    indices := mesh.indices ++ [mesh.indices.length % 2 ^ 32] }

/-- One face's tessellation as returned by `BRep_Tool::Triangulation`:
the node list and the triangle list of 1-based index triples. -/
structure Tessellation where
  nodes : List Vec3
  triangles : List (ℕ × ℕ × ℕ)

/-- One face as seen by the extraction loop: an optional tessellation
(`Triangulation` may be null), the `TopAbs_REVERSED` orientation flag, and
the face's local-to-global transform (`location.Transformation()`),
modelled as an abstract point map owned by the kernel. -/
structure Face where
  triangulation : Option Tessellation
  reversed : Bool
  transform : Vec3 → Vec3

/-- Node lookup `triangulation->Node(i)` with the kernel's 1-based index `i`.  The
kernel guarantees indices are in range; out-of-range lookups (which cannot
occur on kernel output) default to the origin. -/
def nodeAt (nodes : List Vec3) (i : ℕ) : Vec3 :=
  nodes.getD (i - 1) { x := 0, y := 0, z := 0 }

/-- The vertex emitted for node index `i`: the node resolved through the
face transform, each coordinate multiplied by the unit scale
(`Vec3 v{p.X() * scale, p.Y() * scale, p.Z() * scale}`). -/
noncomputable def vertexAt (scale : ℝ) (tf : Vec3 → Vec3) (nodes : List Vec3) (i : ℕ) : Vec3 :=
  let p := tf (nodeAt nodes i)
  { x := p.x * scale, y := p.y * scale, z := p.z * scale }

/-- The per-triangle face normal: `normalize(cross(v2 - v1, v3 - v1))`,
each component multiplied by `-1.0` when the face is reversed. -/
noncomputable def triangleNormal (reversed : Bool) (v1 v2 v3 : Vec3) : Vec3 :=
  let normal := normalize (cross (subtract v2 v1) (subtract v3 v1))
  if reversed then
    { x := normal.x * (-1.0), y := normal.y * (-1.0), z := normal.z * (-1.0) }
  else
    normal

/-- The body of the inner triangle loop: compute the three scaled
transformed vertices, the (possibly negated) face normal, append the three
vertices and fold them into the bounds. -/
noncomputable def processTriangle (scale : ℝ) (tf : Vec3 → Vec3) (reversed : Bool)
    (nodes : List Vec3) (st : MeshData × Bounds) (tri : ℕ × ℕ × ℕ) : MeshData × Bounds :=
  let v1 := vertexAt scale tf nodes tri.1
  let v2 := vertexAt scale tf nodes tri.2.1
  let v3 := vertexAt scale tf nodes tri.2.2
  let normal := triangleNormal reversed v1 v2 v3
  (appendVertex (appendVertex (appendVertex st.1 v1 normal) v2 normal) v3 normal,
   updateBounds (updateBounds (updateBounds st.2 v1) v2) v3)

/-- The body of the face loop: a face with a null triangulation is skipped
(`continue`), otherwise every triangle of its tessellation is processed. -/
noncomputable def processFace (scale : ℝ) (st : MeshData × Bounds) (face : Face) :
    MeshData × Bounds :=
  match face.triangulation with
  | none => st
  | some t => t.triangles.foldl (processTriangle scale face.transform face.reversed t.nodes) st

/-- Initial state of `MeshData mesh;`. -/
def emptyMesh : MeshData :=
  { positions := [], normals := [], indices := [] }

/-- Value of `std::numeric_limits<double>::max()`, the largest finite double. -/
noncomputable def dblMax : ℝ := (2 ^ 53 - 1) * 2 ^ 971

/-- The bounds sentinel the pipeline starts from:
`numeric_limits<double>::max()` in every min component and
`numeric_limits<double>::lowest()` (its negation) in every max component. -/
noncomputable def initialBounds : Bounds :=
  { min := { x := dblMax, y := dblMax, z := dblMax }
    max := { x := -dblMax, y := -dblMax, z := -dblMax } }

/-- The whole extraction pass over the kernel's faces, starting from the
empty mesh and the sentinel bounds. -/
noncomputable def extract (scale : ℝ) (faces : List Face) : MeshData × Bounds :=
  faces.foldl (processFace scale) (emptyMesh, initialBounds)

/-- The serialized output document, modelled structurally: the bounds
object, the single mesh entity with its fixed id and three flat buffers,
and the always-empty edge list. -/
structure Document where
  docBounds : Bounds
  meshId : String
  positions : List ℝ
  normals : List ℝ
  indices : List ℕ
  edges : List Unit

/-- Observable outcome of the post-tessellation part of `main`: the exit
code, the document written to standard output (if any), and the message
written to standard error (if any). -/
structure RunResult where
  exitCode : ℕ
  stdoutDoc : Option Document
  stderrMsg : Option String

/-- Tail of `main` from the point where tessellation has succeeded: resolve the
unit scale, run the extraction, fail with exit code 1 and the
`EmptyMeshFailure` message when the position buffer is empty, otherwise
serialize the document to standard output and exit 0. -/
noncomputable def runPipeline (unit : String) (faces : List Face) : RunResult :=
  let scale := unitScale unit
  let st := extract scale faces
  if st.1.positions.isEmpty then
    { exitCode := 1, stdoutDoc := none, stderrMsg := some "No mesh data extracted.\n" }
  else
    { exitCode := 0
      stdoutDoc := some
        { docBounds := st.2
          meshId := "mesh-0"
          positions := st.1.positions
          normals := st.1.normals
          indices := st.1.indices
          edges := [] }
      stderrMsg := none }

/-- Tessellation parameters and unit token gathered from the option loop. -/
structure Config where
  deflection : ℝ
  angle : ℝ
  unit : String

/-- The defaults set in `main` before the option loop. -/
noncomputable def defaultConfig : Config :=
  { deflection := 0.2, angle := 0.5, unit := "mm" }

/-- The option loop of `main` over `argv[2..]`: a recognized flag followed
by a value consumes both; a recognized flag in final position (no `i + 1 <
argc`) and any unrecognized token are skipped silently. -/
def parseLoop (parse : String → Option ℝ) : Config → List String → Config
  | config, [] => config
  | config, [_] => config
  | config, a :: v :: rest =>
    if a = "--deflection" then
      parseLoop parse { config with deflection := readDouble parse (some v) config.deflection } rest
    else if a = "--angle" then
      parseLoop parse { config with angle := readDouble parse (some v) config.angle } rest
    else if a = "--unit" then
      parseLoop parse { config with unit := v } rest
    else
      parseLoop parse config (v :: rest)

/-! ### Derived descriptions of the extraction output

These lists restate, face by face and triangle by triangle, which data the
loops of `main` traverse; the lemmas below prove that the imperative state
threading of `extract` produces exactly these lists. -/

/-- Total number of triangles over all faces that carry a tessellation. -/
def totalTriangles (faces : List Face) : ℕ :=
  (faces.map fun f =>
    match f.triangulation with
    | none => 0
    | some t => t.triangles.length).sum

/-- The transformed (but not yet scaled) kernel points of one face, three
per triangle, in traversal order. -/
def facePoints (f : Face) : List Vec3 :=
  match f.triangulation with
  | none => []
  | some t =>
    t.triangles.flatMap fun tri =>
      [f.transform (nodeAt t.nodes tri.1),
       f.transform (nodeAt t.nodes tri.2.1),
       f.transform (nodeAt t.nodes tri.2.2)]

/-- All transformed model-space points the pipeline visits, in order. -/
def transformedPoints (faces : List Face) : List Vec3 :=
  faces.flatMap facePoints

/-- Componentwise multiplication by the unit scale factor. -/
noncomputable def scalePoint (scale : ℝ) (p : Vec3) : Vec3 :=
  { x := p.x * scale, y := p.y * scale, z := p.z * scale }

/-- The vertices the pipeline emits: every transformed point, scaled. -/
noncomputable def emittedVertices (scale : ℝ) (faces : List Face) : List Vec3 :=
  (transformedPoints faces).map (scalePoint scale)

/-- Flatten a vertex list into the `x, y, z, x, y, z, …` buffer layout. -/
noncomputable def flatCoords (vs : List Vec3) : List ℝ :=
  vs.flatMap fun v => [v.x, v.y, v.z]

/-- The three scaled vertices of one triangle, in source order. -/
noncomputable def triVerts (scale : ℝ) (tf : Vec3 → Vec3) (nodes : List Vec3)
    (tri : ℕ × ℕ × ℕ) : List Vec3 :=
  [vertexAt scale tf nodes tri.1, vertexAt scale tf nodes tri.2.1,
   vertexAt scale tf nodes tri.2.2]

/-- The scaled vertices contributed by one face. -/
noncomputable def faceVerts (scale : ℝ) (f : Face) : List Vec3 :=
  match f.triangulation with
  | none => []
  | some t => t.triangles.flatMap (triVerts scale f.transform t.nodes)

/-- The index buffer only ever holds the mod-`2 ^ 32` residues of its own
positions: `indices = (range indices.length).map (· % 2 ^ 32)`. -/
def indexInv (m : MeshData) : Prop :=
  m.indices = (List.range m.indices.length).map (fun i => i % 2 ^ 32)

/-- Containment: `v` lies inside `b` on every axis. -/
def containsPt (b : Bounds) (v : Vec3) : Prop :=
  b.min.x ≤ v.x ∧ v.x ≤ b.max.x ∧
  b.min.y ≤ v.y ∧ v.y ≤ b.max.y ∧
  b.min.z ≤ v.z ∧ v.z ≤ b.max.z

/-- Widening order: `b2` has a lower min and a higher max than `b1` on every axis. -/
def boundsShrink (b1 b2 : Bounds) : Prop :=
  b2.min.x ≤ b1.min.x ∧ b1.max.x ≤ b2.max.x ∧
  b2.min.y ≤ b1.min.y ∧ b1.max.y ≤ b2.max.y ∧
  b2.min.z ≤ b1.min.z ∧ b1.max.z ≤ b2.max.z

/-! ### Characterization lemmas for the extraction loops -/

lemma vertexAt_eq_scalePoint (scale : ℝ) (tf : Vec3 → Vec3) (nodes : List Vec3) (i : ℕ) :
    vertexAt scale tf nodes i = scalePoint scale (tf (nodeAt nodes i)) := rfl

lemma faceVerts_eq_map (scale : ℝ) (f : Face) :
    faceVerts scale f = (facePoints f).map (scalePoint scale) := by
  unfold faceVerts facePoints
  cases f.triangulation with
  | none => rfl
  | some t =>
    rw [List.map_flatMap]
    rfl

lemma appendVertex_positions (m : MeshData) (p n : Vec3) :
    (appendVertex m p n).positions = m.positions ++ [p.x, p.y, p.z] := rfl

lemma appendVertex_indexInv (m : MeshData) (p n : Vec3) (h : indexInv m) :
    indexInv (appendVertex m p n) := by
  unfold indexInv at h ⊢
  simp only [appendVertex, List.length_append, List.length_singleton,
    List.range_succ, List.map_append, List.map_cons, List.map_nil]
  rw [← h]

lemma processTriangle_positions (scale : ℝ) (tf : Vec3 → Vec3) (rev : Bool)
    (nodes : List Vec3) (st : MeshData × Bounds) (tri : ℕ × ℕ × ℕ) :
    (processTriangle scale tf rev nodes st tri).1.positions =
      st.1.positions ++ flatCoords (triVerts scale tf nodes tri) := by
  simp [processTriangle, appendVertex, flatCoords, triVerts]

lemma processTriangle_normals_length (scale : ℝ) (tf : Vec3 → Vec3) (rev : Bool)
    (nodes : List Vec3) (st : MeshData × Bounds) (tri : ℕ × ℕ × ℕ) :
    (processTriangle scale tf rev nodes st tri).1.normals.length =
      st.1.normals.length + 9 := by
  simp [processTriangle, appendVertex]

lemma processTriangle_indices_length (scale : ℝ) (tf : Vec3 → Vec3) (rev : Bool)
    (nodes : List Vec3) (st : MeshData × Bounds) (tri : ℕ × ℕ × ℕ) :
    (processTriangle scale tf rev nodes st tri).1.indices.length =
      st.1.indices.length + 3 := by
  simp [processTriangle, appendVertex]

lemma processTriangle_indexInv (scale : ℝ) (tf : Vec3 → Vec3) (rev : Bool)
    (nodes : List Vec3) (st : MeshData × Bounds) (tri : ℕ × ℕ × ℕ)
    (h : indexInv st.1) :
    indexInv (processTriangle scale tf rev nodes st tri).1 := by
  exact appendVertex_indexInv _ _ _ (appendVertex_indexInv _ _ _ (appendVertex_indexInv _ _ _ h))

lemma processTriangle_bounds (scale : ℝ) (tf : Vec3 → Vec3) (rev : Bool)
    (nodes : List Vec3) (st : MeshData × Bounds) (tri : ℕ × ℕ × ℕ) :
    (processTriangle scale tf rev nodes st tri).2 =
      (triVerts scale tf nodes tri).foldl updateBounds st.2 := by
  simp [processTriangle, triVerts]

lemma foldTri_positions (scale : ℝ) (tf : Vec3 → Vec3) (rev : Bool) (nodes : List Vec3)
    (tris : List (ℕ × ℕ × ℕ)) : ∀ st : MeshData × Bounds,
    (tris.foldl (processTriangle scale tf rev nodes) st).1.positions =
      st.1.positions ++ flatCoords (tris.flatMap (triVerts scale tf nodes)) := by
  induction tris with
  | nil => intro st; simp [flatCoords]
  | cons tri rest ih =>
    intro st
    rw [List.foldl_cons, ih, processTriangle_positions]
    simp [flatCoords, List.append_assoc]

lemma foldTri_normals_length (scale : ℝ) (tf : Vec3 → Vec3) (rev : Bool) (nodes : List Vec3)
    (tris : List (ℕ × ℕ × ℕ)) : ∀ st : MeshData × Bounds,
    (tris.foldl (processTriangle scale tf rev nodes) st).1.normals.length =
      st.1.normals.length + 9 * tris.length := by
  induction tris with
  | nil => intro st; simp
  | cons tri rest ih =>
    intro st
    rw [List.foldl_cons, ih, processTriangle_normals_length]
    simp
    ring

lemma foldTri_indices_length (scale : ℝ) (tf : Vec3 → Vec3) (rev : Bool) (nodes : List Vec3)
    (tris : List (ℕ × ℕ × ℕ)) : ∀ st : MeshData × Bounds,
    (tris.foldl (processTriangle scale tf rev nodes) st).1.indices.length =
      st.1.indices.length + 3 * tris.length := by
  induction tris with
  | nil => intro st; simp
  | cons tri rest ih =>
    intro st
    rw [List.foldl_cons, ih, processTriangle_indices_length]
    simp
    ring

lemma foldTri_indexInv (scale : ℝ) (tf : Vec3 → Vec3) (rev : Bool) (nodes : List Vec3)
    (tris : List (ℕ × ℕ × ℕ)) : ∀ st : MeshData × Bounds, indexInv st.1 →
    indexInv (tris.foldl (processTriangle scale tf rev nodes) st).1 := by
  induction tris with
  | nil => intro st h; exact h
  | cons tri rest ih =>
    intro st h
    rw [List.foldl_cons]
    exact ih _ (processTriangle_indexInv _ _ _ _ _ _ h)

lemma foldTri_bounds (scale : ℝ) (tf : Vec3 → Vec3) (rev : Bool) (nodes : List Vec3)
    (tris : List (ℕ × ℕ × ℕ)) : ∀ st : MeshData × Bounds,
    (tris.foldl (processTriangle scale tf rev nodes) st).2 =
      (tris.flatMap (triVerts scale tf nodes)).foldl updateBounds st.2 := by
  induction tris with
  | nil => intro st; simp
  | cons tri rest ih =>
    intro st
    rw [List.foldl_cons, ih, processTriangle_bounds]
    simp [List.foldl_append]

lemma processFace_positions (scale : ℝ) (st : MeshData × Bounds) (f : Face) :
    (processFace scale st f).1.positions = st.1.positions ++ flatCoords (faceVerts scale f) := by
  unfold processFace faceVerts
  cases f.triangulation with
  | none => simp [flatCoords]
  | some t => exact foldTri_positions _ _ _ _ _ st

lemma flatMap_triVerts_length (scale : ℝ) (tf : Vec3 → Vec3) (nodes : List Vec3)
    (tris : List (ℕ × ℕ × ℕ)) :
    (tris.flatMap (triVerts scale tf nodes)).length = 3 * tris.length := by
  induction tris with
  | nil => simp
  | cons a t ih =>
    rw [List.flatMap_cons, List.length_append, ih]
    simp [triVerts]
    omega

lemma processFace_normals_length (scale : ℝ) (st : MeshData × Bounds) (f : Face) :
    (processFace scale st f).1.normals.length =
      st.1.normals.length + 3 * (faceVerts scale f).length := by
  unfold processFace faceVerts
  cases f.triangulation with
  | none => simp
  | some t =>
    rw [foldTri_normals_length, flatMap_triVerts_length]
    omega

lemma processFace_indices_length (scale : ℝ) (st : MeshData × Bounds) (f : Face) :
    (processFace scale st f).1.indices.length =
      st.1.indices.length + (faceVerts scale f).length := by
  unfold processFace faceVerts
  cases f.triangulation with
  | none => simp
  | some t =>
    rw [foldTri_indices_length, flatMap_triVerts_length]

lemma processFace_indexInv (scale : ℝ) (st : MeshData × Bounds) (f : Face)
    (h : indexInv st.1) : indexInv (processFace scale st f).1 := by
  unfold processFace
  cases f.triangulation with
  | none => exact h
  | some t => exact foldTri_indexInv _ _ _ _ _ st h

lemma processFace_bounds (scale : ℝ) (st : MeshData × Bounds) (f : Face) :
    (processFace scale st f).2 = (faceVerts scale f).foldl updateBounds st.2 := by
  unfold processFace faceVerts
  cases f.triangulation with
  | none => simp
  | some t => exact foldTri_bounds _ _ _ _ _ st

lemma foldFaces_positions (scale : ℝ) (faces : List Face) : ∀ st : MeshData × Bounds,
    (faces.foldl (processFace scale) st).1.positions =
      st.1.positions ++ flatCoords (faces.flatMap (faceVerts scale)) := by
  induction faces with
  | nil => intro st; simp [flatCoords]
  | cons f rest ih =>
    intro st
    rw [List.foldl_cons, ih, processFace_positions]
    simp [flatCoords, List.append_assoc]

lemma foldFaces_normals_length (scale : ℝ) (faces : List Face) : ∀ st : MeshData × Bounds,
    (faces.foldl (processFace scale) st).1.normals.length =
      st.1.normals.length + 3 * (faces.flatMap (faceVerts scale)).length := by
  induction faces with
  | nil => intro st; simp
  | cons f rest ih =>
    intro st
    rw [List.foldl_cons, ih, processFace_normals_length]
    simp [List.length_flatMap]
    ring

lemma foldFaces_indices_length (scale : ℝ) (faces : List Face) : ∀ st : MeshData × Bounds,
    (faces.foldl (processFace scale) st).1.indices.length =
      st.1.indices.length + (faces.flatMap (faceVerts scale)).length := by
  induction faces with
  | nil => intro st; simp
  | cons f rest ih =>
    intro st
    rw [List.foldl_cons, ih, processFace_indices_length]
    simp [List.length_flatMap]
    ring

lemma foldFaces_indexInv (scale : ℝ) (faces : List Face) : ∀ st : MeshData × Bounds,
    indexInv st.1 → indexInv (faces.foldl (processFace scale) st).1 := by
  induction faces with
  | nil => intro st h; exact h
  | cons f rest ih =>
    intro st h
    rw [List.foldl_cons]
    exact ih _ (processFace_indexInv _ _ _ h)

lemma foldFaces_bounds (scale : ℝ) (faces : List Face) : ∀ st : MeshData × Bounds,
    (faces.foldl (processFace scale) st).2 =
      (faces.flatMap (faceVerts scale)).foldl updateBounds st.2 := by
  induction faces with
  | nil => intro st; simp
  | cons f rest ih =>
    intro st
    rw [List.foldl_cons, ih, processFace_bounds]
    simp [List.foldl_append]

lemma flatMap_faceVerts_eq (scale : ℝ) (faces : List Face) :
    faces.flatMap (faceVerts scale) = emittedVertices scale faces := by
  unfold emittedVertices transformedPoints
  rw [List.map_flatMap]
  exact congrArg faces.flatMap (funext (faceVerts_eq_map scale))

lemma length_flatMap_three {α β : Type} (l : List α) (g : α → List β)
    (h : ∀ a, (g a).length = 3) : (l.flatMap g).length = 3 * l.length := by
  induction l with
  | nil => simp
  | cons a t ih =>
    rw [List.flatMap_cons, List.length_append, h, ih, List.length_cons]
    ring

lemma totalTriangles_cons (f : Face) (rest : List Face) :
    totalTriangles (f :: rest) =
      (match f.triangulation with
       | none => 0
       | some t => t.triangles.length) + totalTriangles rest := by
  unfold totalTriangles
  rw [List.map_cons, List.sum_cons]

lemma facePoints_length (f : Face) :
    (facePoints f).length =
      3 * (match f.triangulation with
           | none => 0
           | some t => t.triangles.length) := by
  cases h : f.triangulation with
  | none => simp [facePoints, h]
  | some t =>
    simp only [facePoints, h]
    exact length_flatMap_three _ _ (fun tri => rfl)

lemma transformedPoints_length (faces : List Face) :
    (transformedPoints faces).length = 3 * totalTriangles faces := by
  induction faces with
  | nil => rfl
  | cons f rest ih =>
    unfold transformedPoints at ih ⊢
    rw [List.flatMap_cons, List.length_append, ih, facePoints_length,
      totalTriangles_cons, Nat.mul_add]

lemma emittedVertices_length (scale : ℝ) (faces : List Face) :
    (emittedVertices scale faces).length = 3 * totalTriangles faces := by
  unfold emittedVertices
  rw [List.length_map, transformedPoints_length]

lemma extract_positions (scale : ℝ) (faces : List Face) :
    (extract scale faces).1.positions = flatCoords (emittedVertices scale faces) := by
  unfold extract
  rw [foldFaces_positions, flatMap_faceVerts_eq]
  simp [emptyMesh]

lemma flatCoords_length (vs : List Vec3) : (flatCoords vs).length = 3 * vs.length :=
  length_flatMap_three _ _ (fun _ => rfl)

lemma extract_positions_length (scale : ℝ) (faces : List Face) :
    (extract scale faces).1.positions.length = 3 * (emittedVertices scale faces).length := by
  rw [extract_positions, flatCoords_length]

lemma extract_normals_length (scale : ℝ) (faces : List Face) :
    (extract scale faces).1.normals.length = 3 * (emittedVertices scale faces).length := by
  unfold extract
  rw [foldFaces_normals_length, flatMap_faceVerts_eq]
  simp [emptyMesh]

lemma extract_indices_length (scale : ℝ) (faces : List Face) :
    (extract scale faces).1.indices.length = (emittedVertices scale faces).length := by
  unfold extract
  rw [foldFaces_indices_length, flatMap_faceVerts_eq]
  simp [emptyMesh]

lemma extract_indexInv (scale : ℝ) (faces : List Face) :
    indexInv (extract scale faces).1 := by
  unfold extract
  exact foldFaces_indexInv scale faces _ rfl

lemma extract_bounds (scale : ℝ) (faces : List Face) :
    (extract scale faces).2 = (emittedVertices scale faces).foldl updateBounds initialBounds := by
  unfold extract
  rw [foldFaces_bounds, flatMap_faceVerts_eq]

lemma boundsShrink_trans {b1 b2 b3 : Bounds} (h1 : boundsShrink b1 b2)
    (h2 : boundsShrink b2 b3) : boundsShrink b1 b3 := by
  obtain ⟨a1, a2, a3, a4, a5, a6⟩ := h1
  obtain ⟨c1, c2, c3, c4, c5, c6⟩ := h2
  exact ⟨le_trans c1 a1, le_trans a2 c2, le_trans c3 a3, le_trans a4 c4,
    le_trans c5 a5, le_trans a6 c6⟩

lemma updateBounds_shrink (b : Bounds) (v : Vec3) : boundsShrink b (updateBounds b v) :=
  ⟨min_le_left _ _, le_max_left _ _, min_le_left _ _, le_max_left _ _,
    min_le_left _ _, le_max_left _ _⟩

lemma updateBounds_contains (b : Bounds) (v : Vec3) : containsPt (updateBounds b v) v :=
  ⟨min_le_right _ _, le_max_right _ _, min_le_right _ _, le_max_right _ _,
    min_le_right _ _, le_max_right _ _⟩

lemma containsPt_of_shrink {b1 b2 : Bounds} {v : Vec3} (hs : boundsShrink b1 b2)
    (hc : containsPt b1 v) : containsPt b2 v := by
  obtain ⟨a1, a2, a3, a4, a5, a6⟩ := hs
  obtain ⟨c1, c2, c3, c4, c5, c6⟩ := hc
  exact ⟨le_trans a1 c1, le_trans c2 a2, le_trans a3 c3, le_trans c4 a4,
    le_trans a5 c5, le_trans c6 a6⟩

lemma foldl_updateBounds_shrink (l : List Vec3) : ∀ b : Bounds,
    boundsShrink b (l.foldl updateBounds b) := by
  induction l with
  | nil =>
    intro b
    exact ⟨le_refl _, le_refl _, le_refl _, le_refl _, le_refl _, le_refl _⟩
  | cons a t ih =>
    intro b
    rw [List.foldl_cons]
    exact boundsShrink_trans (updateBounds_shrink b a) (ih (updateBounds b a))

lemma mem_foldl_updateBounds (l : List Vec3) : ∀ (b : Bounds) (v : Vec3), v ∈ l →
    containsPt (l.foldl updateBounds b) v := by
  induction l with
  | nil =>
    intro b v hv
    exact absurd hv (List.not_mem_nil v)
  | cons a t ih =>
    intro b v hv
    rw [List.foldl_cons]
    rcases List.mem_cons.mp hv with h | h
    · subst h
      exact containsPt_of_shrink (foldl_updateBounds_shrink t (updateBounds b v))
        (updateBounds_contains b v)
    · exact ih (updateBounds b a) v h

lemma processTriangle_normals (scale : ℝ) (tf : Vec3 → Vec3) (rev : Bool)
    (nodes : List Vec3) (st : MeshData × Bounds) (tri : ℕ × ℕ × ℕ) :
    (processTriangle scale tf rev nodes st tri).1.normals =
      st.1.normals ++ flatCoords (List.replicate 3 (triangleNormal rev
        (vertexAt scale tf nodes tri.1) (vertexAt scale tf nodes tri.2.1)
        (vertexAt scale tf nodes tri.2.2))) := by
  simp [processTriangle, appendVertex, flatCoords, List.replicate]

lemma triangleNormal_reversed (v1 v2 v3 : Vec3) :
    triangleNormal true v1 v2 v3 =
      { x := -(triangleNormal false v1 v2 v3).x
        y := -(triangleNormal false v1 v2 v3).y
        z := -(triangleNormal false v1 v2 v3).z } := by
  simp only [triangleNormal, if_true, if_false, Bool.false_eq_true, ite_false, ite_true]
  refine Vec3.mk.injEq .. ▸ ⟨by norm_num, by norm_num, by norm_num⟩

/-! ### Claim theorems -/

/-- Claim C1: for every triangle, the normal emitted on a face marked
reversed is the componentwise negation of the normal that the same triangle
(same three vertices, same order) gets on a forward face, and the vertex
data appended — positions, indices, bounds folds — is identical in both
orientations: the vertex order is never altered, only the normal sign. -/
theorem claim_C1_reversed_negates_normal (scale : ℝ) (tf : Vec3 → Vec3)
    (nodes : List Vec3) (tri : ℕ × ℕ × ℕ) (st : MeshData × Bounds) :
    (∀ v1 v2 v3 : Vec3, triangleNormal true v1 v2 v3 =
      { x := -(triangleNormal false v1 v2 v3).x
        y := -(triangleNormal false v1 v2 v3).y
        z := -(triangleNormal false v1 v2 v3).z }) ∧
    (processTriangle scale tf true nodes st tri).1.positions =
      (processTriangle scale tf false nodes st tri).1.positions ∧
    (processTriangle scale tf true nodes st tri).1.indices =
      (processTriangle scale tf false nodes st tri).1.indices ∧
    (processTriangle scale tf true nodes st tri).2 =
      (processTriangle scale tf false nodes st tri).2 ∧
    (processTriangle scale tf true nodes st tri).1.positions =
      st.1.positions ++ flatCoords (triVerts scale tf nodes tri) ∧
    (processTriangle scale tf true nodes st tri).1.normals =
      st.1.normals ++ flatCoords (List.replicate 3
        { x := -(triangleNormal false (vertexAt scale tf nodes tri.1)
            (vertexAt scale tf nodes tri.2.1) (vertexAt scale tf nodes tri.2.2)).x
          y := -(triangleNormal false (vertexAt scale tf nodes tri.1)
            (vertexAt scale tf nodes tri.2.1) (vertexAt scale tf nodes tri.2.2)).y
          z := -(triangleNormal false (vertexAt scale tf nodes tri.1)
            (vertexAt scale tf nodes tri.2.1) (vertexAt scale tf nodes tri.2.2)).z }) := by
  refine ⟨triangleNormal_reversed, ?_, ?_, ?_, ?_, ?_⟩
  · rw [processTriangle_positions, processTriangle_positions]
  · simp [processTriangle, appendVertex]
  · simp [processTriangle]
  · exact processTriangle_positions scale tf true nodes st tri
  · rw [processTriangle_normals, triangleNormal_reversed]

/-- The buffer invariant of §3: the position and normal buffers hold three
doubles per vertex and the index buffer one entry per vertex. -/
def meshInv (m : MeshData) : Prop :=
  m.positions.length = m.normals.length ∧
  m.positions.length = 3 * m.indices.length

/-- Claim C2: `positions.length == normals.length == 3 * indices.length`
is preserved by every `appendVertex` call and holds for the mesh produced
by the whole extraction pass. -/
theorem claim_C2_buffer_length_invariant :
    (∀ (m : MeshData) (p n : Vec3), meshInv m → meshInv (appendVertex m p n)) ∧
    (∀ (scale : ℝ) (faces : List Face), meshInv (extract scale faces).1) := by
  constructor
  · intro m p n h
    obtain ⟨h1, h2⟩ := h
    constructor
    · simp [appendVertex, h1]
    · simp [appendVertex]
      omega
  · intro scale faces
    constructor
    · rw [extract_positions_length, extract_normals_length]
    · rw [extract_positions_length, extract_indices_length]

/-- Witness for C2 at a concrete mesh: the invariant holds for the empty
mesh and is carried through one concrete append. -/
theorem claim_C2_buffer_length_invariant_witness :
    meshInv emptyMesh ∧
    meshInv (appendVertex emptyMesh { x := 1, y := 2, z := 3 } { x := 0, y := 0, z := 1 }) :=
  ⟨⟨rfl, rfl⟩, claim_C2_buffer_length_invariant.1 emptyMesh _ _ ⟨rfl, rfl⟩⟩

/-- A face consisting of a single triangle, used as a concrete input. -/
def oneTriFace : Face :=
  { triangulation := some
      { nodes := [{ x := 0, y := 0, z := 0 }, { x := 1, y := 0, z := 0 },
                  { x := 0, y := 1, z := 0 }]
        triangles := [(1, 2, 3)] }
    reversed := false
    transform := fun p => p }

/-- A face whose tessellation holds `n` copies of the degenerate triangle
`(1, 1, 1)` over a single node. -/
def repFace (n : ℕ) : Face :=
  { triangulation := some
      { nodes := [{ x := 0, y := 0, z := 0 }]
        triangles := List.replicate n (1, 1, 1) }
    reversed := false
    transform := fun p => p }

lemma repFace_total (n : ℕ) : totalTriangles [repFace n] = n := by
  simp [totalTriangles, repFace]

/-- Counterexample to C3 as stated: with `1431655766` triangles the index
buffer holds `4294967298` entries, and because `appendVertex` pushes
`static_cast<unsigned int>(indices.size())`, entry `2 ^ 32` wraps to `0`,
not `4294967296`. -/
theorem claim_C3_counterexample :
    4294967296 < (extract 1 [repFace 1431655766]).1.indices.length ∧
    (extract 1 [repFace 1431655766]).1.indices[4294967296]? = some 0 ∧
    (extract 1 [repFace 1431655766]).1.indices[4294967296]? ≠ some 4294967296 := by
  have hlen : (extract 1 [repFace 1431655766]).1.indices.length = 4294967298 := by
    rw [extract_indices_length, emittedVertices_length, repFace_total]
  have hinv := extract_indexInv 1 [repFace 1431655766]
  unfold indexInv at hinv
  have hget : (extract 1 [repFace 1431655766]).1.indices[4294967296]? = some 0 := by
    conv_lhs => rw [hinv]
    rw [List.getElem?_map, List.getElem?_range (by rw [hlen]; norm_num)]
    norm_num
  refine ⟨by rw [hlen]; norm_num, hget, ?_⟩
  rw [hget]
  intro hcontra
  exact absurd (Option.some.inj hcontra) (by norm_num)

/-- Claim C3 (amended): `appendVertex` appends the current index count
reduced mod `2 ^ 32` — so `indices[i] == i % 2 ^ 32` for every `i`, which
equals `i` whenever fewer than `2 ^ 32` vertices have been appended — and
every append adds a fresh vertex (no sharing or deduplication). -/
theorem claim_C3_sequential_indices :
    (∀ (m : MeshData) (p n : Vec3),
      (appendVertex m p n).indices = m.indices ++ [m.indices.length % 2 ^ 32] ∧
      (appendVertex m p n).positions.length = m.positions.length + 3) ∧
    (∀ (scale : ℝ) (faces : List Face) (i : ℕ),
      i < (extract scale faces).1.indices.length →
        (extract scale faces).1.indices[i]? = some (i % 2 ^ 32)) ∧
    (∀ (scale : ℝ) (faces : List Face) (i : ℕ),
      i < (extract scale faces).1.indices.length → i < 2 ^ 32 →
        (extract scale faces).1.indices[i]? = some i) := by
  have key : ∀ (scale : ℝ) (faces : List Face) (i : ℕ),
      i < (extract scale faces).1.indices.length →
        (extract scale faces).1.indices[i]? = some (i % 2 ^ 32) := by
    intro scale faces i hi
    have hinv := extract_indexInv scale faces
    unfold indexInv at hinv
    conv_lhs => rw [hinv]
    rw [List.getElem?_map, List.getElem?_range hi]
    rfl
  refine ⟨?_, key, ?_⟩
  · intro m p n
    exact ⟨rfl, by simp [appendVertex]⟩
  · intro scale faces i hi hsmall
    rw [key scale faces i hi, Nat.mod_eq_of_lt hsmall]

/-- Witness for the amended C3 at a concrete one-triangle face: the index
buffer has three entries and entry 0 is 0. -/
theorem claim_C3_sequential_indices_witness :
    0 < (extract 1 [oneTriFace]).1.indices.length ∧ 0 < 2 ^ 32 ∧
    (extract 1 [oneTriFace]).1.indices[0]? = some 0 := by
  have hlen : (extract 1 [oneTriFace]).1.indices.length = 3 := by
    rw [extract_indices_length, emittedVertices_length]
    simp [totalTriangles, oneTriFace]
  have h0 : 0 < (extract 1 [oneTriFace]).1.indices.length := by
    rw [hlen]; norm_num
  exact ⟨h0, by norm_num,
    claim_C3_sequential_indices.2.2 1 [oneTriFace] 0 h0 (by norm_num)⟩

/-- Claim C4: every emitted position coordinate is the kernel's transformed
model-space coordinate multiplied by the unit scale, which is exactly `1.0`
for the token `"m"` and exactly `0.001` for every other token; the
resolver is total, so no token is ever rejected. -/
theorem claim_C4_unit_scaling :
    (∀ (u : String) (faces : List Face),
      (extract (unitScale u) faces).1.positions =
        (transformedPoints faces).flatMap
          (fun p => [p.x * unitScale u, p.y * unitScale u, p.z * unitScale u])) ∧
    unitScale "m" = 1.0 ∧
    (∀ u : String, u ≠ "m" → unitScale u = 0.001) := by
  refine ⟨?_, ?_, ?_⟩
  · intro u faces
    rw [extract_positions]
    unfold emittedVertices flatCoords
    rw [List.flatMap_map]
    rfl
  · simp [unitScale]
  · intro u h
    simp [unitScale, h]

/-- Witness for C4 at the default token: `"mm"` is not `"m"` and resolves
to the millimeter scale `0.001`. -/
theorem claim_C4_unit_scaling_witness :
    ("mm" : String) ≠ "m" ∧ unitScale "mm" = 0.001 :=
  ⟨by decide, claim_C4_unit_scaling.2.2 "mm" (by decide)⟩

lemma normalize_eq (v : Vec3) :
    normalize v =
      if Real.sqrt (v.x ^ 2 + v.y ^ 2 + v.z ^ 2) ≤ 1e-12 then
        { x := 0, y := 0, z := 0 }
      else
        { x := v.x / Real.sqrt (v.x ^ 2 + v.y ^ 2 + v.z ^ 2)
          y := v.y / Real.sqrt (v.x ^ 2 + v.y ^ 2 + v.z ^ 2)
          z := v.z / Real.sqrt (v.x ^ 2 + v.y ^ 2 + v.z ^ 2) } := by
  simp only [normalize]
  rw [show v.x * v.x + v.y * v.y + v.z * v.z = v.x ^ 2 + v.y ^ 2 + v.z ^ 2 by ring]
  split
  · norm_num
  · rfl

/-- Claim C5: `normalize` returns the input divided by its Euclidean length
when that length exceeds `1e-12` and the exact zero vector when it is at
most `1e-12`; a degenerate triangle still contributes its three vertices to
the buffers and the bounds fold — the buffer sizes and the bounds depend
only on the triangle count and vertex data, never on the normal. -/
theorem claim_C5_normalize_degenerate :
    (∀ v : Vec3, Real.sqrt (v.x ^ 2 + v.y ^ 2 + v.z ^ 2) ≤ 1e-12 →
      normalize v = { x := 0, y := 0, z := 0 }) ∧
    (∀ v : Vec3, 1e-12 < Real.sqrt (v.x ^ 2 + v.y ^ 2 + v.z ^ 2) →
      normalize v =
        { x := v.x / Real.sqrt (v.x ^ 2 + v.y ^ 2 + v.z ^ 2)
          y := v.y / Real.sqrt (v.x ^ 2 + v.y ^ 2 + v.z ^ 2)
          z := v.z / Real.sqrt (v.x ^ 2 + v.y ^ 2 + v.z ^ 2) }) ∧
    (∀ (scale : ℝ) (faces : List Face),
      (extract scale faces).1.positions.length = 9 * totalTriangles faces ∧
      (extract scale faces).1.normals.length = 9 * totalTriangles faces ∧
      (extract scale faces).2 =
        (emittedVertices scale faces).foldl updateBounds initialBounds) := by
  refine ⟨?_, ?_, ?_⟩
  · intro v h
    rw [normalize_eq, if_pos h]
  · intro v h
    rw [normalize_eq, if_neg (not_le.mpr h)]
  · intro scale faces
    refine ⟨?_, ?_, extract_bounds scale faces⟩
    · rw [extract_positions_length, emittedVertices_length]
      ring
    · rw [extract_normals_length, emittedVertices_length]
      ring

/-- Witness for C5: the zero vector is degenerate and maps to the zero
normal; the vector (3, 4, 0) has length 5 and is divided by it. -/
theorem claim_C5_normalize_degenerate_witness :
    (Real.sqrt ((0 : ℝ) ^ 2 + (0 : ℝ) ^ 2 + (0 : ℝ) ^ 2) ≤ 1e-12 ∧
      normalize { x := 0, y := 0, z := 0 } = { x := 0, y := 0, z := 0 }) ∧
    (1e-12 < Real.sqrt ((3 : ℝ) ^ 2 + (4 : ℝ) ^ 2 + (0 : ℝ) ^ 2) ∧
      normalize { x := 3, y := 4, z := 0 } =
        { x := 3 / Real.sqrt ((3 : ℝ) ^ 2 + (4 : ℝ) ^ 2 + (0 : ℝ) ^ 2)
          y := 4 / Real.sqrt ((3 : ℝ) ^ 2 + (4 : ℝ) ^ 2 + (0 : ℝ) ^ 2)
          z := 0 / Real.sqrt ((3 : ℝ) ^ 2 + (4 : ℝ) ^ 2 + (0 : ℝ) ^ 2) }) := by
  have h0 : Real.sqrt ((0 : ℝ) ^ 2 + (0 : ℝ) ^ 2 + (0 : ℝ) ^ 2) ≤ 1e-12 := by
    rw [show (0 : ℝ) ^ 2 + (0 : ℝ) ^ 2 + (0 : ℝ) ^ 2 = 0 by norm_num, Real.sqrt_zero]
    norm_num
  have h5 : Real.sqrt ((3 : ℝ) ^ 2 + (4 : ℝ) ^ 2 + (0 : ℝ) ^ 2) = 5 := by
    rw [show (3 : ℝ) ^ 2 + (4 : ℝ) ^ 2 + (0 : ℝ) ^ 2 = 5 ^ 2 by norm_num]
    exact Real.sqrt_sq (by norm_num)
  have h1 : (1e-12 : ℝ) < Real.sqrt ((3 : ℝ) ^ 2 + (4 : ℝ) ^ 2 + (0 : ℝ) ^ 2) := by
    rw [h5]
    norm_num
  exact ⟨⟨h0, claim_C5_normalize_degenerate.1 { x := 0, y := 0, z := 0 } h0⟩,
    ⟨h1, claim_C5_normalize_degenerate.2.1 { x := 3, y := 4, z := 0 } h1⟩⟩

/-- Claim C6: at pipeline end the bounds contain every emitted vertex on
every axis, and the final bounds are exactly the `updateBounds` fold over
the list of emitted vertices — one fold per emitted vertex, three per
triangle. -/
theorem claim_C6_bounds_contain_vertices :
    (∀ (scale : ℝ) (faces : List Face) (v : Vec3),
      v ∈ emittedVertices scale faces → containsPt (extract scale faces).2 v) ∧
    (∀ (scale : ℝ) (faces : List Face),
      (extract scale faces).2 =
        (emittedVertices scale faces).foldl updateBounds initialBounds ∧
      (emittedVertices scale faces).length = 3 * totalTriangles faces) := by
  constructor
  · intro scale faces v hv
    rw [extract_bounds]
    exact mem_foldl_updateBounds _ _ _ hv
  · intro scale faces
    exact ⟨extract_bounds scale faces, emittedVertices_length scale faces⟩

/-- Witness for C6 at the one-triangle face: the origin is among the
emitted vertices and the final bounds contain it. -/
theorem claim_C6_bounds_contain_vertices_witness :
    ({ x := 0, y := 0, z := 0 } : Vec3) ∈ emittedVertices 1 [oneTriFace] ∧
    containsPt (extract 1 [oneTriFace]).2 { x := 0, y := 0, z := 0 } := by
  have hlist : emittedVertices 1 [oneTriFace] =
      [{ x := 0, y := 0, z := 0 }, { x := 1, y := 0, z := 0 },
       { x := 0, y := 1, z := 0 }] := by
    simp [emittedVertices, transformedPoints, facePoints, oneTriFace, scalePoint, nodeAt]
  have hmem : ({ x := 0, y := 0, z := 0 } : Vec3) ∈ emittedVertices 1 [oneTriFace] := by
    rw [hlist]
    exact List.mem_cons_self _ _
  exact ⟨hmem, claim_C6_bounds_contain_vertices.1 1 [oneTriFace] _ hmem⟩

lemma emittedVertices_nil_of_total (scale : ℝ) (faces : List Face)
    (h : totalTriangles faces = 0) : emittedVertices scale faces = [] := by
  have hl := emittedVertices_length scale faces
  rw [h, Nat.mul_zero] at hl
  exact List.length_eq_zero.mp hl

lemma extract_positions_nil (scale : ℝ) (faces : List Face)
    (h : totalTriangles faces = 0) : (extract scale faces).1.positions = [] := by
  have hl : (extract scale faces).1.positions.length = 0 := by
    rw [extract_positions_length, emittedVertices_nil_of_total scale faces h]
    rfl
  exact List.length_eq_zero.mp hl

lemma runPipeline_emptyMesh (unit : String) (faces : List Face)
    (h : totalTriangles faces = 0) :
    runPipeline unit faces =
      { exitCode := 1, stdoutDoc := none,
        stderrMsg := some "No mesh data extracted.\n" } := by
  simp only [runPipeline]
  rw [extract_positions_nil _ _ h]
  rfl

/-- Claim C7: when no triangle is ever extracted the position buffer is
empty after the face loop, and the process exits with code 1, writes the
`EmptyMeshFailure` message `No mesh data extracted.` to standard error,
and writes no document to standard output. -/
theorem claim_C7_empty_mesh_failure (unit : String) (faces : List Face)
    (h : totalTriangles faces = 0) :
    (extract (unitScale unit) faces).1.positions = [] ∧
    runPipeline unit faces =
      { exitCode := 1, stdoutDoc := none,
        stderrMsg := some "No mesh data extracted.\n" } :=
  ⟨extract_positions_nil _ _ h, runPipeline_emptyMesh unit faces h⟩

/-- Witness for C7: the empty face list extracts nothing and fails. -/
theorem claim_C7_empty_mesh_failure_witness :
    totalTriangles ([] : List Face) = 0 ∧
    runPipeline "mm" [] =
      { exitCode := 1, stdoutDoc := none,
        stderrMsg := some "No mesh data extracted.\n" } :=
  ⟨rfl, (claim_C7_empty_mesh_failure "mm" [] rfl).2⟩

/-- Counterexample to C8 as stated: the code initializes the bounds to
`std::numeric_limits<double>::max() = (2^53 - 1) * 2^971` (and its
negation, `lowest()`), which is a finite double — not the IEEE infinities
(+inf, -inf) that the claim names as the sentinel. -/
theorem claim_C8_counterexample :
    ((initialBounds.min.x : EReal) ≠ ⊤) ∧ ((initialBounds.max.x : EReal) ≠ ⊥) ∧
    initialBounds.min.x = (2 ^ 53 - 1) * 2 ^ 971 ∧
    initialBounds.max.x = -((2 ^ 53 - 1) * 2 ^ 971) :=
  ⟨EReal.coe_ne_top _, EReal.coe_ne_bot _, rfl, rfl⟩

/-- Claim C8 (amended): the bounds accumulator is initialized to the
largest-finite-double sentinel — `numeric_limits<double>::max()` in every
min component and its negation (`lowest()`) in every max component — before
any vertex is folded in; if no vertex is ever folded in, the bounds remain
at this sentinel and are never serialized (the run produces no document). -/
theorem claim_C8_sentinel_bounds (unit : String) (faces : List Face)
    (h : totalTriangles faces = 0) :
    (extract (unitScale unit) faces).2 = initialBounds ∧
    (runPipeline unit faces).stdoutDoc = none ∧
    initialBounds.min.x = dblMax ∧ initialBounds.min.y = dblMax ∧
    initialBounds.min.z = dblMax ∧ initialBounds.max.x = -dblMax ∧
    initialBounds.max.y = -dblMax ∧ initialBounds.max.z = -dblMax := by
  refine ⟨?_, ?_, rfl, rfl, rfl, rfl, rfl, rfl⟩
  · rw [extract_bounds, emittedVertices_nil_of_total _ _ h]
    rfl
  · rw [runPipeline_emptyMesh unit faces h]

/-- Witness for the amended C8 at the empty face list. -/
theorem claim_C8_sentinel_bounds_witness :
    totalTriangles ([] : List Face) = 0 ∧
    (extract (unitScale "mm") []).2 = initialBounds ∧
    (runPipeline "mm" []).stdoutDoc = none :=
  ⟨rfl, (claim_C8_sentinel_bounds "mm" [] rfl).1,
    (claim_C8_sentinel_bounds "mm" [] rfl).2.1⟩

/-- Claim C9: an unparsable value for `--deflection` or `--angle` silently
falls back to the prior value — the loop result is as if the flag/value
pair were absent — the defaults are `0.2` and `0.5`, and no error state
exists: `parseLoop` always returns a configuration. -/
theorem claim_C9_silent_numeric_fallback (parse : String → Option ℝ)
    (s : String) (rest : List String) (c : Config) (h : parse s = none) :
    readDouble parse (some s) c.deflection = c.deflection ∧
    readDouble parse none c.angle = c.angle ∧
    parseLoop parse c ("--deflection" :: s :: rest) = parseLoop parse c rest ∧
    parseLoop parse c ("--angle" :: s :: rest) = parseLoop parse c rest ∧
    defaultConfig.deflection = 0.2 ∧ defaultConfig.angle = 0.5 := by
  have hrd : ∀ fb : ℝ, readDouble parse (some s) fb = fb := by
    intro fb
    simp [readDouble, h]
  refine ⟨hrd _, rfl, ?_, ?_, rfl, rfl⟩
  · rw [parseLoop]
    rw [if_pos rfl, hrd]
  · rw [parseLoop]
    rw [if_neg (by decide), if_pos rfl, hrd]

/-- Witness for C9 with a parse function that rejects `"abc"`. -/
theorem claim_C9_silent_numeric_fallback_witness :
    ((fun _ : String => (none : Option ℝ)) "abc" = none) ∧
    parseLoop (fun _ => none) defaultConfig ["--deflection", "abc"] =
      parseLoop (fun _ => none) defaultConfig [] ∧
    parseLoop (fun _ => none) defaultConfig ["--angle", "abc"] =
      parseLoop (fun _ => none) defaultConfig [] :=
  ⟨rfl,
    (claim_C9_silent_numeric_fallback (fun _ => none) "abc" [] defaultConfig rfl).2.2.1,
    (claim_C9_silent_numeric_fallback (fun _ => none) "abc" [] defaultConfig rfl).2.2.2.1⟩

/-- Claim C10: a recognized flag that is the final argument (no following
value) leaves the configuration untouched, and any unrecognized token is
skipped with the configuration unchanged; no error or warning channel
exists in the loop. -/
theorem claim_C10_unmatched_arguments_ignored (parse : String → Option ℝ) (c : Config) :
    (parseLoop parse c ["--deflection"] = c ∧
     parseLoop parse c ["--angle"] = c ∧
     parseLoop parse c ["--unit"] = c) ∧
    (∀ (t : String) (rest : List String),
      t ≠ "--deflection" → t ≠ "--angle" → t ≠ "--unit" →
        parseLoop parse c (t :: rest) = parseLoop parse c rest) := by
  refine ⟨⟨rfl, rfl, rfl⟩, ?_⟩
  intro t rest h1 h2 h3
  cases rest with
  | nil => rfl
  | cons v rest2 =>
    rw [parseLoop]
    rw [if_neg h1, if_neg h2, if_neg h3]

/-- Witness for C10: the unrecognized token `--bogus` is skipped and the
following arguments are still processed. -/
theorem claim_C10_unmatched_arguments_ignored_witness :
    ("--bogus" : String) ≠ "--deflection" ∧ ("--bogus" : String) ≠ "--angle" ∧
    ("--bogus" : String) ≠ "--unit" ∧
    parseLoop (fun _ => none) defaultConfig ["--bogus", "--unit", "m"] =
      parseLoop (fun _ => none) defaultConfig ["--unit", "m"] :=
  ⟨by decide, by decide, by decide,
    (claim_C10_unmatched_arguments_ignored (fun _ => none) defaultConfig).2
      "--bogus" ["--unit", "m"] (by decide) (by decide) (by decide)⟩

end OcctCli
